import Mathlib

/-!
Verification of the graph-partitioning engine in `thunder/dynamo/splitter.py`.

The file shallowly embeds the partition callback (lines 91-134 of the
source), the name-based partition predicate `is_thunder_supported_partition`
(lines 141-142) and the compile/assembly phase of `_splitter`
(lines 144-195).  Collaborators that live in `thunder/dynamo/utils.py`
(`SplitReason`, `update_node_and_submodule`, `checkpoint_converter`, ...)
are modelled from the specification, as noted on each definition.

Python's mutable closure state (`prev_value`, `partition_cnt`,
`supported_partitions`, `split_reasons`, `has_thunder_tracable_checkpoint`)
becomes an explicit state record threaded through the callback; Python
object identity (needed for the deepcopy / aliasing claims) is modelled by
explicit numeric identity tags on graphs and submodules.
-/

namespace ThunderSplitter

/-! Executable string primitives.  The splitter uses Python's
`str.startswith`, `str.replace` (replace every non-overlapping occurrence,
scanning left to right) and `int(...)` on decimal digit strings; they are
re-implemented here by structural recursion over the character list so
that concrete runs reduce inside the kernel. -/

/-- `s.startswith(p)`. -/
def strStartsWith (s p : String) : Bool :=
  p.data.isPrefixOf s.data

/-- One fuel-indexed pass of `str.replace`: at each position, if the
pattern matches, emit the replacement and skip the pattern, else keep the
character; every step consumes at least one character, so fuel = input
length suffices. -/
def replaceAux (pat rep : List Char) : Nat → List Char → List Char
  | _, [] => []
  | 0, l => l
  | fuel + 1, c :: rest =>
    if pat.isPrefixOf (c :: rest) then
      rep ++ replaceAux pat rep fuel ((c :: rest).drop pat.length)
    else
      c :: replaceAux pat rep fuel rest

/-- `s.replace(pat, rep)` for a non-empty pattern (the splitter only ever
replaces non-empty name fragments). -/
def strReplace (s pat rep : String) : String :=
  if pat.data = [] then s
  else ⟨replaceAux pat.data rep.data s.data.length s.data⟩

/-- `int(s)` on a plain decimal-digit string, as `Option`: `none` when `s`
is empty or has a non-digit character, where Python's `int` raises.
(Python also tolerates surrounding whitespace, signs and inner
underscores; such names never arise from `split_module`, which names
submodules `submod_<k>`.) -/
def strToNat? (s : String) : Option Nat :=
  if s.data = [] then none
  else
    s.data.foldl
      (fun acc c =>
        match acc with
        | none => none
        | some n => if c.isDigit then some (n * 10 + (c.toNat - 48)) else none)
      (some 0)

instance (ε α : Type) [DecidableEq ε] [DecidableEq α] : DecidableEq (Except ε α) := fun x y =>
  match x, y with
  | Except.ok a, Except.ok b =>
    if h : a = b then Decidable.isTrue (by rw [h])
    else Decidable.isFalse (by intro hc; injection hc; contradiction)
  | Except.ok _, Except.error _ => Decidable.isFalse (by intro hc; cases hc)
  | Except.error _, Except.ok _ => Decidable.isFalse (by intro hc; cases hc)
  | Except.error e, Except.error f =>
    if h : e = f then Decidable.isTrue (by rw [h])
    else Decidable.isFalse (by intro hc; injection hc; contradiction)

/-- The `op` attribute of a torch.fx node.  The callback asserts that the
three structural kinds never reach it. -/
inductive NodeOp where
  | placeholder
  | get_attr
  | output
  | call_function
  | call_method
  | call_module
deriving DecidableEq, Repr

/-- Rendering of a node op, used in the assertion message of the callback. -/
def NodeOp.str : NodeOp → String
  | .placeholder => "placeholder"
  | .get_attr => "get_attr"
  | .output => "output"
  | .call_function => "call_function"
  | .call_method => "call_method"
  | .call_module => "call_module"

/-- A node target: either the distinguished higher-order checkpoint operator
`torch.ops.higher_order.tag_activation_checkpoint` (the callback compares
`node.target` against it with `is`) or any other operator, identified by
name. -/
inductive Target where
  | tag_activation_checkpoint
  | op (name : String)
deriving DecidableEq, Repr

/-- Rendering of a target, used in the unsupported-context reason string. -/
def Target.str : Target → String
  | .tag_activation_checkpoint => "torch.ops.higher_order.tag_activation_checkpoint"
  | .op n => n

/-- A torch.fx node, restricted to the attributes the splitter reads:
`name`, `op` and `target`. -/
structure Node where
  name : String
  op : NodeOp
  target : Target
deriving DecidableEq, Repr

/-- Modelled from the spec: `SplitReasonType` (defined in
`thunder/dynamo/utils.py`, not under src/) is an enum of reason kinds; the
splitter itself only ever constructs `UNSUPPORTED_NODE`, other kinds may
arrive from the support predicate. -/
inductive SplitReasonType where
  | UNSUPPORTED_NODE
  | other_kind
deriving DecidableEq, Repr

/-- Modelled from the spec: `SplitReason` (defined in
`thunder/dynamo/utils.py`, not under src/) is an immutable record of a
reason kind together with a free-text explanation. -/
structure SplitReason where
  kind : SplitReasonType
  info : String
deriving DecidableEq, Repr

/-- The info string built at lines 113-116 of the source for a node inside
an unsupported context region. -/
def unsupportedCtxInfo (node : Node) : String :=
  "node with name: " ++ node.name ++ " and target: " ++ node.target.str ++
    " is not supported probably because it is in unsupported context."

/-- The mutable state closed over by the callback (lines 91-95 of the
source). -/
structure CBState where
  prev_value : Option Bool
  partition_cnt : Nat
  supported_partitions : List Nat
  split_reasons : List SplitReason
  has_thunder_tracable_checkpoint : Bool
deriving DecidableEq, Repr

/-- The initial values of the callback state (lines 91-95). -/
def initState : CBState :=
  { prev_value := none
    partition_cnt := 0
    supported_partitions := []
    split_reasons := []
    has_thunder_tracable_checkpoint := false }

/-- The classification stage of the callback, lines 108-123 of
`splitter.py`: decides the node's support value (`False` unconditionally
inside an unsupported context region, else the support predicate's
verdict), appends the split reason if any, and raises the checkpoint flag
when a supported tagged-checkpoint call is seen.  `ctx` is membership in
`nodes_in_unsupported_ctx_regions`; `sup` is the external collaborator
`is_node_supported_by_thunder`. -/
def classifyState (ctx : Node → Bool) (sup : Node → Bool × Option SplitReason)
    (s : CBState) (node : Node) : Bool × CBState :=
  if ctx node then
    (false,
      { s with split_reasons :=
          s.split_reasons ++
            [⟨SplitReasonType.UNSUPPORTED_NODE, unsupportedCtxInfo node⟩] })
  else
    let p := sup node
    let s1 :=
      if node.target = Target.tag_activation_checkpoint ∧ p.1 = true then
        { s with has_thunder_tracable_checkpoint := true }
      else s
    let s2 :=
      match p.2 with
      | some r => { s1 with split_reasons := s1.split_reasons ++ [r] }
      | none => s1
    (p.1, s2)

/-- The region/flip stage of the callback, lines 125-134 of `splitter.py`:
returns the node's assigned partition id and the updated region state,
given the node's support value `b`.  Same region → keep the current id;
otherwise bump the counter, record it as supported when the new region is
supported, and assign it. -/
def regionStep (b : Bool) (s : CBState) : Nat × CBState :=
  if s.prev_value = some b then (s.partition_cnt, s)
  else
    let s4 := { s with prev_value := some b, partition_cnt := s.partition_cnt + 1 }
    let s5 :=
      if b then
        { s4 with supported_partitions := s4.supported_partitions ++ [s4.partition_cnt] }
      else s4
    (s5.partition_cnt, s5)

/-- The partition callback, lines 99-134 of `splitter.py`: the assertion
on structural ops (modelled by `Except.error`) followed by the
classification stage and the region/flip stage. -/
def callback (ctx : Node → Bool) (sup : Node → Bool × Option SplitReason)
    (s : CBState) (node : Node) : Except String (Nat × CBState) :=
  if node.op = NodeOp.placeholder ∨ node.op = NodeOp.get_attr ∨ node.op = NodeOp.output then
    Except.error
      ("fx.split_module should have only passed node.op=call_* but received " ++ node.op.str)
  else
    let classified := classifyState ctx sup s node
    Except.ok (regionStep classified.1 classified.2)

/-- The support classification the callback computes for a call node:
`False` inside an unsupported context region, otherwise the verdict of the
support predicate (first component of lines 112 / 119). -/
def classify (ctx : Node → Bool) (sup : Node → Bool × Option SplitReason)
    (node : Node) : Bool :=
  if ctx node then false else (sup node).1

/-- Iterates the callback over a list of nodes in program order, as
`split_module` does (line 136-139 comment), collecting each node's
assigned partition id. -/
def runCallback (ctx : Node → Bool) (sup : Node → Bool × Option SplitReason) :
    CBState → List Node → Except String (List Nat × CBState)
  | s, [] => Except.ok ([], s)
  | s, n :: ns =>
    match callback ctx sup s n with
    | Except.error e => Except.error e
    | Except.ok (id, s1) =>
      match runCallback ctx sup s1 ns with
      | Except.error e => Except.error e
      | Except.ok (ids, s2) => Except.ok (id :: ids, s2)

/-- Whether a node is one of the three structural kinds that the callback
asserts never to receive. -/
def Node.isStructural (n : Node) : Bool :=
  n.op = NodeOp.placeholder || n.op = NodeOp.get_attr || n.op = NodeOp.output

/-- A submodule of a split graph (a `torch.fx.GraphModule` attribute such as
`submod_1`).  Python object identity, which the deepcopy / bookkeeping
claims are about, is modelled by the pair `(copy, idx)`: `copy` records
which copy of the split graph the object belongs to and `idx` its position;
`name` and `converted` are the mutable attributes the splitter touches
(`converted` stands for the checkpoint rewriting of the submodule's
internal nodes). -/
structure Submodule where
  copy : Nat
  idx : Nat
  name : String
  converted : Bool
deriving DecidableEq, Repr

/-- The split graph produced by `split_module`: a parent graph whose nodes
we record by name (the compile loop of lines 155-183 reads only names),
plus its submodule attributes.  `copyId` is the graph object's identity
tag. -/
structure SplitGM where
  copyId : Nat
  nodes : List String
  submods : List Submodule
deriving DecidableEq, Repr

/-- `getattr(split_gm, name)`: looks up the submodule attribute called
`name`.  Python raises `AttributeError` when absent; absence is the `none`
case. -/
def SplitGM.getattr (g : SplitGM) (name : String) : Option Submodule :=
  g.submods.find? (fun m => m.name = name)

/-- Replaces the submodule attribute called `name` (in-place mutation of
the graph object in Python). -/
def SplitGM.setSubmodule (g : SplitGM) (name : String) (m' : Submodule) : SplitGM :=
  { g with submods := g.submods.map (fun m => if m.name = name then m' else m) }

/-- `copy.deepcopy(split_gm)` (line 153): produces an independent graph of
identical structure; every object in it has a fresh identity, modelled by
bumping the copy tag on the graph and on each submodule. -/
def deepcopy (g : SplitGM) : SplitGM :=
  { copyId := g.copyId + 1
    nodes := g.nodes
    submods := g.submods.map (fun m => { m with copy := g.copyId + 1 }) }

/-- Modelled from the spec: `update_node_and_submodule` (defined in
`thunder/dynamo/utils.py`, not under src/) renames the parent-graph call
node and the corresponding submodule attribute from the generic
`submod_*` name to the backend-branded name, mutating the split graph in
place; the compiled callable that replaces the call target is tracked
separately in this model. -/
def update_node_and_submodule (g : SplitGM) (old new : String) : SplitGM :=
  { g with
      nodes := g.nodes.map (fun n => if n = old then new else n)
      submods := g.submods.map (fun m => if m.name = old then { m with name := new } else m) }

/-- Modelled from the spec: `checkpoint_converter(split_gm, graph_module)`
(defined in `thunder/dynamo/utils.py`, not under src/) replaces the torch
operators within checkpoint-tagged calls of `graph_module` with Thunder
symbols, mutating the submodule in place.  The rewriting is abstracted by
setting the `converted` flag; the pair returned is the mutated graph and
the mutated submodule object. -/
def checkpoint_converter (g : SplitGM) (m : Submodule) : SplitGM × Submodule :=
  let m1 := { m with converted := true }
  (g.setSubmodule m.name m1, m1)

/-- `CompilerType` from `thunder/dynamo/utils.py` (modelled from the spec:
tags which backend produced a compiled callable). -/
inductive CompilerType where
  | THUNDER
  | TORCH_INDUCTOR
deriving DecidableEq, Repr

/-- `CompiledFunction` from `thunder/dynamo/utils.py` (modelled from the
spec: pairs a compiled callable with its backend tag).  `J` is the type of
compiled callables, opaque to the splitter. -/
structure CompiledFunction (J : Type) where
  compiled_fn : J
  compiler : CompilerType
deriving DecidableEq, Repr

/-- Observable effects of the compile phase, recorded in order: graph
duplication, checkpoint conversion of a submodule, backend compilation of
a submodule, node/submodule renaming, and the final recompile. -/
inductive Event where
  | duplicate
  | convert (m : Submodule)
  | compile_thunder (m : Submodule)
  | compile_inductor (m : Submodule)
  | rename (old new : String)
  | recompile
deriving DecidableEq, Repr

/-- Lines 141-142: a parent-graph node belongs to a Thunder-supported
partition iff its name starts with `"submod"` and
`int(node.name.replace("submod_", ""))` is in `supported_partitions`.
Python's `int` raises on a non-numeric remainder; that is the error
case (`and` short-circuits, so a name without the prefix never parses). -/
def is_thunder_supported_partition (supported_partitions : List Nat) (name : String) :
    Except String Bool :=
  if strStartsWith name "submod" then
    match strToNat? (strReplace name "submod_" "") with
    | some k => Except.ok (decide (k ∈ supported_partitions))
    | none => Except.error ("invalid literal for int: " ++ strReplace name "submod_" "")
  else
    Except.ok false

/-- The mutable state of the compile loop (lines 145-146 plus the split
graph being mutated and the event trace). -/
structure CompileState (J : Type) where
  split_gm : SplitGM
  thunder_compiled_fns : List J
  submodule_to_compiled_fns : List (Submodule × CompiledFunction J)
  events : List Event
deriving DecidableEq, Repr

/-- One iteration of the loop at lines 155-183, for the parent node named
`nodeName`.  In the Thunder branch the submodule is fetched, converted in
place, compiled, and the node and submodule are renamed `submod_*` →
`thunder_*`; the bookkeeping key is `getattr(origin_split_gm, ...)` when a
copy was made (note the node's name was already rewritten to `thunder_*`,
hence the reverse replace), else the very submodule object that was
compiled.  The inductor branch is analogous without conversion; any other
node is glue and is left untouched. -/
def compileStep (J : Type) (thunder_jit torch_inductor : Submodule → J)
    (supported_partitions : List Nat) (has_ckpt : Bool) (origin : SplitGM)
    (st : CompileState J) (nodeName : String) : Except String (CompileState J) :=
  match is_thunder_supported_partition supported_partitions nodeName with
  | Except.error e => Except.error e
  | Except.ok true =>
    match st.split_gm.getattr nodeName with
    | none => Except.error ("AttributeError: " ++ nodeName)
    | some graph_module =>
      let conv := checkpoint_converter st.split_gm graph_module
      let jit_fn := thunder_jit conv.2
      let newName := strReplace nodeName "submod" "thunder"
      let gm2 := update_node_and_submodule conv.1 nodeName newName
      let st1 : CompileState J :=
        { split_gm := gm2
          thunder_compiled_fns := st.thunder_compiled_fns ++ [jit_fn]
          submodule_to_compiled_fns := st.submodule_to_compiled_fns
          events := st.events ++
            [Event.convert graph_module, Event.compile_thunder conv.2,
             Event.rename nodeName newName] }
      if has_ckpt then
        match origin.getattr (strReplace newName "thunder" "submod") with
        | none => Except.error ("AttributeError: " ++ strReplace newName "thunder" "submod")
        | some key =>
          Except.ok { st1 with submodule_to_compiled_fns :=
            st1.submodule_to_compiled_fns ++ [(key, ⟨jit_fn, CompilerType.THUNDER⟩)] }
      else
        Except.ok { st1 with submodule_to_compiled_fns :=
          st1.submodule_to_compiled_fns ++ [(conv.2, ⟨jit_fn, CompilerType.THUNDER⟩)] }
  | Except.ok false =>
    if strStartsWith nodeName "submod" then
      match st.split_gm.getattr nodeName with
      | none => Except.error ("AttributeError: " ++ nodeName)
      | some graph_module =>
        let jit_fn := torch_inductor graph_module
        let newName := strReplace nodeName "submod" "inductor"
        let gm2 := update_node_and_submodule st.split_gm nodeName newName
        let st1 : CompileState J :=
          { split_gm := gm2
            thunder_compiled_fns := st.thunder_compiled_fns
            submodule_to_compiled_fns := st.submodule_to_compiled_fns
            events := st.events ++
              [Event.compile_inductor graph_module, Event.rename nodeName newName] }
        if has_ckpt then
          match origin.getattr (strReplace newName "inductor" "submod") with
          | none => Except.error ("AttributeError: " ++ strReplace newName "inductor" "submod")
          | some key =>
            Except.ok { st1 with submodule_to_compiled_fns :=
              st1.submodule_to_compiled_fns ++ [(key, ⟨jit_fn, CompilerType.TORCH_INDUCTOR⟩)] }
        else
          Except.ok { st1 with submodule_to_compiled_fns :=
            st1.submodule_to_compiled_fns ++ [(graph_module, ⟨jit_fn, CompilerType.TORCH_INDUCTOR⟩)] }
    else
      Except.ok st

/-- The loop at lines 155-183 over the parent-graph nodes in order. -/
def compileLoop (J : Type) (thunder_jit torch_inductor : Submodule → J)
    (supported_partitions : List Nat) (has_ckpt : Bool) (origin : SplitGM) :
    CompileState J → List String → Except String (CompileState J)
  | st, [] => Except.ok st
  | st, n :: ns =>
    match compileStep J thunder_jit torch_inductor supported_partitions has_ckpt origin st n with
    | Except.error e => Except.error e
    | Except.ok st1 =>
      compileLoop J thunder_jit torch_inductor supported_partitions has_ckpt origin st1 ns

/-- `SubgraphInfo` from `thunder/dynamo/utils.py` (modelled from the spec:
the output record of lines 188-195 — original graph, intermediate split
graph, final split graph, Thunder-compiled callables, submodule mapping,
split reasons). -/
structure SubgraphInfo (J : Type) where
  gm : List Node
  origin_split_gm : SplitGM
  split_gm : SplitGM
  thunder_compiled_fns : List J
  submodule_to_compiled_fns : List (Submodule × CompiledFunction J)
  split_reasons : List SplitReason
deriving DecidableEq, Repr

/-- Lines 144-195 of `_splitter`: the compile/assembly phase, run after
`split_module`.  `origin_split_gm` is recorded before the conditional
deepcopy; when no copy is made the Python names `origin_split_gm` and
`split_gm` refer to the same mutable object, so at return time the
`origin_split_gm` field dereferences the mutated final graph — the
`if has_ckpt` on that field reproduces exactly this aliasing.  The event
trace is returned alongside the source's return value. -/
def compilePhase (J : Type) (thunder_jit torch_inductor : Submodule → J)
    (gm : List Node) (split_gm0 : SplitGM) (supported_partitions : List Nat)
    (has_ckpt : Bool) (split_reasons : List SplitReason) :
    Except String (SplitGM × SubgraphInfo J × List Event) :=
  let origin_split_gm := split_gm0
  let split_gm1 := if has_ckpt then deepcopy split_gm0 else split_gm0
  let st0 : CompileState J :=
    { split_gm := split_gm1
      thunder_compiled_fns := []
      submodule_to_compiled_fns := []
      events := if has_ckpt then [Event.duplicate] else [] }
  match compileLoop J thunder_jit torch_inductor supported_partitions has_ckpt origin_split_gm
      st0 split_gm1.nodes with
  | Except.error e => Except.error e
  | Except.ok stF =>
    Except.ok (stF.split_gm,
      { gm := gm
        origin_split_gm := if has_ckpt then origin_split_gm else stF.split_gm
        split_gm := stF.split_gm
        thunder_compiled_fns := stF.thunder_compiled_fns
        submodule_to_compiled_fns := stF.submodule_to_compiled_fns
        split_reasons := split_reasons },
      stF.events ++ [Event.recompile])

/-- Modelled from the spec: `split_module` (a torch.fx collaborator)
invokes the callback on each call-type node in program order and extracts
the partitions into submodules; the structural extraction is abstracted by
`mk_split`, which builds the split graph from the per-node partition
assignment. -/
def split_module (mk_split : List (Node × Nat) → SplitGM)
    (ctx : Node → Bool) (sup : Node → Bool × Option SplitReason) (gm : List Node) :
    Except String (SplitGM × CBState) :=
  let call_nodes := gm.filter (fun n => !n.isStructural)
  match runCallback ctx sup initState call_nodes with
  | Except.error e => Except.error e
  | Except.ok (ids, s) => Except.ok (mk_split (call_nodes.zip ids), s)

/-- The whole `_splitter` (lines 24-195): partition via the callback, then
compile and assemble.  `supported_partitions`, the checkpoint flag and the
split reasons flow from the final callback state into the compile phase. -/
def _splitter (J : Type) (thunder_jit torch_inductor : Submodule → J)
    (mk_split : List (Node × Nat) → SplitGM)
    (ctx : Node → Bool) (sup : Node → Bool × Option SplitReason) (gm : List Node) :
    Except String (SplitGM × SubgraphInfo J × List Event) :=
  match split_module mk_split ctx sup gm with
  | Except.error e => Except.error e
  | Except.ok (split_gm0, s) =>
    compilePhase J thunder_jit torch_inductor gm split_gm0 s.supported_partitions
      s.has_thunder_tracable_checkpoint s.split_reasons

/-- The state invariant maintained by the callback: every supported
partition id is at most the current counter, and the current counter is a
supported partition exactly when the current region is a supported one. -/
def StateInv (s : CBState) : Prop :=
  (∀ k ∈ s.supported_partitions, k ≤ s.partition_cnt) ∧
    (s.partition_cnt ∈ s.supported_partitions ↔ s.prev_value = some true)

instance (s : CBState) : Decidable (StateInv s) := by
  unfold StateInv; infer_instance

/-! Concrete instances used in the scenario theorems, counterexamples and
witnesses. -/

/-- Scenario node A: a supported call. -/
def nA : Node := ⟨"a", NodeOp.call_function, Target.op "torch.sin"⟩

/-- Scenario node B: a supported call. -/
def nB : Node := ⟨"b", NodeOp.call_function, Target.op "torch.cos"⟩

/-- Scenario node C: an unsupported call. -/
def nC : Node := ⟨"c", NodeOp.call_function, Target.op "torch.sinc"⟩

/-- Scenario node D: a supported call. -/
def nD : Node := ⟨"d", NodeOp.call_function, Target.op "torch.matmul"⟩

/-- A tagged-activation-checkpoint call node. -/
def nK : Node := ⟨"k", NodeOp.call_function, Target.tag_activation_checkpoint⟩

/-- A structural (placeholder) node. -/
def nP : Node := ⟨"p", NodeOp.placeholder, Target.op "L_x_"⟩

/-- Context detector marking no node as inside an unsupported context. -/
def ctx0 : Node → Bool := fun _ => false

/-- Context detector marking node `"c"` as inside an unsupported context. -/
def ctxE : Node → Bool := fun n => n.name = "c"

/-- Support predicate: everything supported except node `"c"`, which gets
a reason. -/
def sup0 : Node → Bool × Option SplitReason := fun n =>
  if n.name = "c" then
    (false, some ⟨SplitReasonType.UNSUPPORTED_NODE, "torch.sinc is not supported"⟩)
  else (true, none)

/-- Support predicate marking every node supported with no reason. -/
def supAll : Node → Bool × Option SplitReason := fun _ => (true, none)

/-- The final callback state of the A/B/C/D scenario. -/
def finalABCD : CBState :=
  ⟨some true, 3, [1, 3],
    [⟨SplitReasonType.UNSUPPORTED_NODE, "torch.sinc is not supported"⟩], false⟩

/-- A concrete primary-backend compiler (opaque callables are numbers). -/
def tj0 : Submodule → Nat := fun m => 100 + m.idx

/-- A concrete secondary-backend compiler. -/
def ti0 : Submodule → Nat := fun m => 200 + m.idx

/-- The generic submodule of partition `k` as `split_module` produces it. -/
def smC (k : Nat) : Submodule := ⟨0, k, "submod_" ++ Nat.repr k, false⟩

/-- A concrete split graph with three partitions and two glue nodes. -/
def sgC : SplitGM :=
  ⟨0, ["l_x_", "submod_1", "submod_2", "submod_3", "output"], [smC 1, smC 2, smC 3]⟩

/-- Collapses each run of equal consecutive partition ids to one
occurrence (partition assignments are contiguous, so this lists the
distinct partitions in order). -/
def collapseRuns : List Nat → List Nat
  | [] => []
  | [k] => [k]
  | k :: k' :: rest =>
    if k = k' then collapseRuns (k' :: rest) else k :: collapseRuns (k' :: rest)

/-- A concrete structural-extraction collaborator: one parent node and one
submodule per distinct partition id, named `submod_<id>`. -/
def mk_split0 (assignment : List (Node × Nat)) : SplitGM :=
  let ids := collapseRuns (assignment.map Prod.snd)
  { copyId := 0
    nodes := ids.map (fun k => "submod_" ++ Nat.repr k)
    submods := ids.map smC }

/-- Fallback split graph for projections out of `Except`. -/
def dummySplit : SplitGM := ⟨0, [], []⟩

/-- Fallback record for projections out of `Except`. -/
def dummyInfo : SubgraphInfo Nat :=
  { gm := []
    origin_split_gm := dummySplit
    split_gm := dummySplit
    thunder_compiled_fns := []
    submodule_to_compiled_fns := []
    split_reasons := [] }

/-- The compile phase run on `sgC` without a detected checkpoint. -/
def resNoCkpt : Except String (SplitGM × SubgraphInfo Nat × List Event) :=
  compilePhase Nat tj0 ti0 [] sgC [1, 3] false []

/-- Final split graph of `resNoCkpt`. -/
def splitNoCkpt : SplitGM :=
  match resNoCkpt with
  | Except.ok r => r.1
  | Except.error _ => dummySplit

/-- `SubgraphInfo` of `resNoCkpt`. -/
def infoNoCkpt : SubgraphInfo Nat :=
  match resNoCkpt with
  | Except.ok r => r.2.1
  | Except.error _ => dummyInfo

/-- Event trace of `resNoCkpt`. -/
def evsNoCkpt : List Event :=
  match resNoCkpt with
  | Except.ok r => r.2.2
  | Except.error _ => []

/-- The compile phase run on `sgC` with a detected checkpoint. -/
def resCkpt : Except String (SplitGM × SubgraphInfo Nat × List Event) :=
  compilePhase Nat tj0 ti0 [] sgC [1, 3] true []

/-- Final split graph of `resCkpt`. -/
def splitCkpt : SplitGM :=
  match resCkpt with
  | Except.ok r => r.1
  | Except.error _ => dummySplit

/-- `SubgraphInfo` of `resCkpt`. -/
def infoCkpt : SubgraphInfo Nat :=
  match resCkpt with
  | Except.ok r => r.2.1
  | Except.error _ => dummyInfo

/-- Event trace of `resCkpt`. -/
def evsCkpt : List Event :=
  match resCkpt with
  | Except.ok r => r.2.2
  | Except.error _ => []

/-- The whole splitter run on the A/B/C/D scenario. -/
def resABCD : Except String (SplitGM × SubgraphInfo Nat × List Event) :=
  _splitter Nat tj0 ti0 mk_split0 ctx0 sup0 [nA, nB, nC, nD]

/-- Event trace of `resABCD`. -/
def evsABCD : List Event :=
  match resABCD with
  | Except.ok r => r.2.2
  | Except.error _ => []

/-- A concrete compile-loop state over `sgC` with nothing compiled yet. -/
def stC : CompileState Nat :=
  { split_gm := sgC
    thunder_compiled_fns := []
    submodule_to_compiled_fns := []
    events := [] }

/-- The final callback state of the scenario [A(supported), K(supported
tagged checkpoint)]. -/
def finalAK : CBState := ⟨some true, 1, [1], [], true⟩

/-- The split graph `mk_split0` builds for the A/B/C/D scenario's
partition assignment [1, 1, 2, 3]. -/
def sgABCD : SplitGM :=
  ⟨0, ["submod_1", "submod_2", "submod_3"], [smC 1, smC 2, smC 3]⟩

/-- Final split graph of `resABCD`. -/
def splitABCD : SplitGM :=
  match resABCD with
  | Except.ok r => r.1
  | Except.error _ => dummySplit

/-- `SubgraphInfo` of `resABCD`. -/
def infoABCD : SubgraphInfo Nat :=
  match resABCD with
  | Except.ok r => r.2.1
  | Except.error _ => dummyInfo

/-- The compile state after one step of the loop on `stC` at node
`submod_1`. -/
def stC1 : CompileState Nat :=
  match compileStep Nat tj0 ti0 [1, 3] false sgC stC "submod_1" with
  | Except.ok v => v
  | Except.error _ => stC

/-- Whether an event is a checkpoint conversion. -/
def Event.isConvert : Event → Bool
  | .convert _ => true
  | _ => false

/-- Whether an event is a primary-backend compilation. -/
def Event.isCompileThunder : Event → Bool
  | .compile_thunder _ => true
  | _ => false

/-! Helper lemmas about the callback stages. -/

theorem callback_eq_stages (ctx : Node → Bool) (sup : Node → Bool × Option SplitReason)
    (s : CBState) (node : Node) (h : node.isStructural = false) :
    callback ctx sup s node =
      Except.ok (regionStep (classifyState ctx sup s node).1 (classifyState ctx sup s node).2) := by
  have h1 : ¬(node.op = NodeOp.placeholder ∨ node.op = NodeOp.get_attr ∨
      node.op = NodeOp.output) := by
    simp only [Node.isStructural, Bool.or_eq_false_iff, decide_eq_false_iff_not] at h
    rcases h with ⟨⟨hp, hg⟩, ho⟩
    rintro (h' | h' | h') <;> contradiction
  unfold callback
  rw [if_neg h1]

theorem callback_structural (ctx : Node → Bool) (sup : Node → Bool × Option SplitReason)
    (s : CBState) (node : Node) (h : node.isStructural = true) :
    callback ctx sup s node =
      Except.error
        ("fx.split_module should have only passed node.op=call_* but received " ++
          node.op.str) := by
  have h1 : node.op = NodeOp.placeholder ∨ node.op = NodeOp.get_attr ∨
      node.op = NodeOp.output := by
    simp only [Node.isStructural, Bool.or_eq_true, decide_eq_true_eq] at h
    tauto
  unfold callback
  rw [if_pos h1]

theorem callback_ok_eq (ctx : Node → Bool) (sup : Node → Bool × Option SplitReason)
    (s : CBState) (node : Node) (r : Nat × CBState)
    (h : callback ctx sup s node = Except.ok r) :
    node.isStructural = false ∧
      r = regionStep (classifyState ctx sup s node).1 (classifyState ctx sup s node).2 := by
  cases hs : node.isStructural with
  | true => rw [callback_structural ctx sup s node hs] at h; exact absurd h (by simp)
  | false =>
    rw [callback_eq_stages ctx sup s node hs] at h
    injection h with h'
    exact ⟨rfl, h'.symm⟩

/-! Facts about the region/flip stage. -/

theorem regionStep_fst (b : Bool) (s : CBState) :
    (regionStep b s).1 = (regionStep b s).2.partition_cnt := by
  unfold regionStep
  cases b <;> split <;> simp_all

theorem regionStep_prev (b : Bool) (s : CBState) :
    (regionStep b s).2.prev_value = some b := by
  unfold regionStep
  cases b <;> split <;> simp_all

theorem regionStep_cnt (b : Bool) (s : CBState) :
    (regionStep b s).2.partition_cnt =
      if s.prev_value = some b then s.partition_cnt else s.partition_cnt + 1 := by
  unfold regionStep
  cases b <;> split <;> simp_all

theorem regionStep_reasons (b : Bool) (s : CBState) :
    (regionStep b s).2.split_reasons = s.split_reasons := by
  unfold regionStep
  cases b <;> split <;> simp_all

theorem regionStep_flag (b : Bool) (s : CBState) :
    (regionStep b s).2.has_thunder_tracable_checkpoint =
      s.has_thunder_tracable_checkpoint := by
  unfold regionStep
  cases b <;> split <;> simp_all

theorem regionStep_supported (b : Bool) (s : CBState) :
    (regionStep b s).2.supported_partitions =
      if s.prev_value = some b then s.supported_partitions
      else if b then s.supported_partitions ++ [s.partition_cnt + 1]
      else s.supported_partitions := by
  unfold regionStep
  cases b <;> split <;> simp_all

theorem regionStep_inv (b : Bool) (s : CBState) (h : StateInv s) :
    StateInv (regionStep b s).2 := by
  obtain ⟨h1, h2⟩ := h
  constructor
  · intro k hk
    rw [regionStep_supported] at hk
    rw [regionStep_cnt]
    by_cases hp : s.prev_value = some b
    · simp only [if_pos hp] at hk ⊢
      exact h1 k hk
    · simp only [if_neg hp] at hk ⊢
      by_cases hb : b = true
      · simp only [if_pos hb, List.mem_append, List.mem_singleton] at hk
        rcases hk with hk | hk
        · exact Nat.le_succ_of_le (h1 k hk)
        · omega
      · simp only [if_neg hb] at hk
        exact Nat.le_succ_of_le (h1 k hk)
  · rw [regionStep_supported, regionStep_cnt, regionStep_prev]
    by_cases hp : s.prev_value = some b
    · simp only [if_pos hp]
      rw [h2, hp]
    · simp only [if_neg hp]
      by_cases hb : b = true
      · subst hb
        simp
      · have hb' : b = false := by
          cases b
          · rfl
          · exact absurd rfl hb
        subst hb'
        simp only [if_neg hb]
        constructor
        · intro h'
          exact absurd (h1 _ h') (by omega)
        · intro h'
          exact absurd h' (by simp)

theorem regionStep_false_not_supported (s : CBState) (h : StateInv s) :
    (regionStep false s).1 ∉ (regionStep false s).2.supported_partitions := by
  intro hmem
  rw [regionStep_fst] at hmem
  have hinv := regionStep_inv false s h
  have := hinv.2.mp hmem
  rw [regionStep_prev] at this
  exact absurd this (by simp)

/-! Facts about the classification stage. -/

theorem classifyState_fst (ctx : Node → Bool) (sup : Node → Bool × Option SplitReason)
    (s : CBState) (n : Node) : (classifyState ctx sup s n).1 = classify ctx sup n := by
  unfold classifyState classify
  by_cases hc : ctx n
  · simp [hc]
  · cases hp : (sup n).2 <;> simp [hc, hp]

theorem classifyState_prev (ctx : Node → Bool) (sup : Node → Bool × Option SplitReason)
    (s : CBState) (n : Node) : (classifyState ctx sup s n).2.prev_value = s.prev_value := by
  unfold classifyState
  by_cases hc : ctx n
  · simp [hc]
  · simp only [hc, Bool.false_eq_true, if_false]
    by_cases ht : n.target = Target.tag_activation_checkpoint ∧ (sup n).1 = true <;>
      cases hp : (sup n).2 <;> simp [hc, hp, ht]

theorem classifyState_cnt (ctx : Node → Bool) (sup : Node → Bool × Option SplitReason)
    (s : CBState) (n : Node) : (classifyState ctx sup s n).2.partition_cnt = s.partition_cnt := by
  unfold classifyState
  by_cases hc : ctx n
  · simp [hc]
  · simp only [hc, Bool.false_eq_true, if_false]
    by_cases ht : n.target = Target.tag_activation_checkpoint ∧ (sup n).1 = true <;>
      cases hp : (sup n).2 <;> simp [hc, hp, ht]

theorem classifyState_supported (ctx : Node → Bool) (sup : Node → Bool × Option SplitReason)
    (s : CBState) (n : Node) :
    (classifyState ctx sup s n).2.supported_partitions = s.supported_partitions := by
  unfold classifyState
  by_cases hc : ctx n
  · simp [hc]
  · simp only [hc, Bool.false_eq_true, if_false]
    by_cases ht : n.target = Target.tag_activation_checkpoint ∧ (sup n).1 = true <;>
      cases hp : (sup n).2 <;> simp [hc, hp, ht]

theorem classifyState_flag_iff (ctx : Node → Bool) (sup : Node → Bool × Option SplitReason)
    (s : CBState) (n : Node) :
    (classifyState ctx sup s n).2.has_thunder_tracable_checkpoint = true ↔
      (s.has_thunder_tracable_checkpoint = true ∨
        (ctx n = false ∧ n.target = Target.tag_activation_checkpoint ∧ (sup n).1 = true)) := by
  unfold classifyState
  by_cases hc : ctx n
  · simp [hc]
  · simp only [hc, Bool.false_eq_true, if_false]
    by_cases ht : n.target = Target.tag_activation_checkpoint ∧ (sup n).1 = true <;>
      cases hp : (sup n).2 <;> simp [hc, hp, ht]

theorem classifyState_ctx (ctx : Node → Bool) (sup : Node → Bool × Option SplitReason)
    (s : CBState) (n : Node) (hc : ctx n = true) :
    classifyState ctx sup s n =
      (false,
        { s with split_reasons :=
            s.split_reasons ++
              [⟨SplitReasonType.UNSUPPORTED_NODE, unsupportedCtxInfo n⟩] }) := by
  unfold classifyState
  simp [hc]

theorem classifyState_inv (ctx : Node → Bool) (sup : Node → Bool × Option SplitReason)
    (s : CBState) (n : Node) (h : StateInv s) : StateInv (classifyState ctx sup s n).2 := by
  obtain ⟨h1, h2⟩ := h
  constructor
  · rw [classifyState_supported, classifyState_cnt]
    exact h1
  · rw [classifyState_supported, classifyState_cnt, classifyState_prev]
    exact h2

/-! Facts about one callback invocation on a call-type node. -/

theorem callback_ok_id (ctx : Node → Bool) (sup : Node → Bool × Option SplitReason)
    (s : CBState) (n : Node) (id : Nat) (s' : CBState)
    (h : callback ctx sup s n = Except.ok (id, s')) : id = s'.partition_cnt := by
  obtain ⟨-, heq⟩ := callback_ok_eq ctx sup s n (id, s') h
  have h1 : id = (regionStep (classifyState ctx sup s n).1 (classifyState ctx sup s n).2).1 :=
    congrArg Prod.fst heq
  have h2 : s' = (regionStep (classifyState ctx sup s n).1 (classifyState ctx sup s n).2).2 :=
    congrArg Prod.snd heq
  rw [h1, h2, regionStep_fst]

theorem callback_ok_cnt (ctx : Node → Bool) (sup : Node → Bool × Option SplitReason)
    (s : CBState) (n : Node) (id : Nat) (s' : CBState)
    (h : callback ctx sup s n = Except.ok (id, s')) :
    s'.partition_cnt =
      if s.prev_value = some (classify ctx sup n) then s.partition_cnt
      else s.partition_cnt + 1 := by
  obtain ⟨-, heq⟩ := callback_ok_eq ctx sup s n (id, s') h
  have h2 : s' = (regionStep (classifyState ctx sup s n).1 (classifyState ctx sup s n).2).2 :=
    congrArg Prod.snd heq
  rw [h2, regionStep_cnt, classifyState_prev, classifyState_cnt, classifyState_fst]

theorem callback_ok_prev (ctx : Node → Bool) (sup : Node → Bool × Option SplitReason)
    (s : CBState) (n : Node) (id : Nat) (s' : CBState)
    (h : callback ctx sup s n = Except.ok (id, s')) :
    s'.prev_value = some (classify ctx sup n) := by
  obtain ⟨-, heq⟩ := callback_ok_eq ctx sup s n (id, s') h
  have h2 : s' = (regionStep (classifyState ctx sup s n).1 (classifyState ctx sup s n).2).2 :=
    congrArg Prod.snd heq
  rw [h2, regionStep_prev, classifyState_fst]

theorem callback_ok_flag (ctx : Node → Bool) (sup : Node → Bool × Option SplitReason)
    (s : CBState) (n : Node) (id : Nat) (s' : CBState)
    (h : callback ctx sup s n = Except.ok (id, s')) :
    (s'.has_thunder_tracable_checkpoint = true ↔
      (s.has_thunder_tracable_checkpoint = true ∨
        (ctx n = false ∧ n.target = Target.tag_activation_checkpoint ∧ (sup n).1 = true))) := by
  obtain ⟨-, heq⟩ := callback_ok_eq ctx sup s n (id, s') h
  have h2 : s' = (regionStep (classifyState ctx sup s n).1 (classifyState ctx sup s n).2).2 :=
    congrArg Prod.snd heq
  rw [h2, regionStep_flag]
  exact classifyState_flag_iff ctx sup s n

theorem callback_ok_inv (ctx : Node → Bool) (sup : Node → Bool × Option SplitReason)
    (s : CBState) (n : Node) (id : Nat) (s' : CBState)
    (h : callback ctx sup s n = Except.ok (id, s')) (hinv : StateInv s) : StateInv s' := by
  obtain ⟨-, heq⟩ := callback_ok_eq ctx sup s n (id, s') h
  have h2 : s' = (regionStep (classifyState ctx sup s n).1 (classifyState ctx sup s n).2).2 :=
    congrArg Prod.snd heq
  rw [h2]
  exact regionStep_inv _ _ (classifyState_inv ctx sup s n hinv)

theorem callback_ok_cnt_le (ctx : Node → Bool) (sup : Node → Bool × Option SplitReason)
    (s : CBState) (n : Node) (id : Nat) (s' : CBState)
    (h : callback ctx sup s n = Except.ok (id, s')) :
    s.partition_cnt ≤ s'.partition_cnt := by
  rw [callback_ok_cnt ctx sup s n id s' h]
  split <;> omega

/-! Facts about iterating the callback over a node list. -/

theorem runCallback_cons_elim (ctx : Node → Bool) (sup : Node → Bool × Option SplitReason)
    (s : CBState) (n : Node) (ns : List Node) (ids : List Nat) (s2 : CBState)
    (h : runCallback ctx sup s (n :: ns) = Except.ok (ids, s2)) :
    ∃ id s1 ids', callback ctx sup s n = Except.ok (id, s1) ∧
      runCallback ctx sup s1 ns = Except.ok (ids', s2) ∧ ids = id :: ids' := by
  unfold runCallback at h
  cases hc : callback ctx sup s n with
  | error e => simp [hc] at h
  | ok p =>
    obtain ⟨id, s1⟩ := p
    simp only [hc] at h
    cases hr : runCallback ctx sup s1 ns with
    | error e => simp [hr] at h
    | ok q =>
      obtain ⟨ids2, s2'⟩ := q
      simp only [hr] at h
      injection h with h'
      injection h' with h1 h2
      subst h1
      subst h2
      exact ⟨id, s1, ids2, rfl, hr, rfl⟩

theorem runCallback_spec (ctx : Node → Bool) (sup : Node → Bool × Option SplitReason) :
    ∀ (ns : List Node) (s : CBState) (ids : List Nat) (s2 : CBState),
      runCallback ctx sup s ns = Except.ok (ids, s2) →
      s.partition_cnt ≤ s2.partition_cnt ∧
        List.Chain' (· ≤ ·) (s.partition_cnt :: ids) ∧
        (∀ id ∈ ids, s.partition_cnt ≤ id ∧ id ≤ s2.partition_cnt)
  | [], s, ids, s2, h => by
    unfold runCallback at h
    injection h with h'
    have hids : ids = [] := by
      have := congrArg Prod.fst h'
      simpa using this.symm
    have hs : s = s2 := by
      have := congrArg Prod.snd h'
      simpa using this
    subst hids
    subst hs
    exact ⟨Nat.le_refl _, List.chain'_singleton _, by simp⟩
  | n :: ns, s, ids, s2, h => by
    obtain ⟨id, s1, ids', hc, hr, hids⟩ := runCallback_cons_elim ctx sup s n ns ids s2 h
    obtain ⟨ih1, ih2, ih3⟩ := runCallback_spec ctx sup ns s1 ids' s2 hr
    have hid : id = s1.partition_cnt := callback_ok_id ctx sup s n id s1 hc
    have hle : s.partition_cnt ≤ s1.partition_cnt := callback_ok_cnt_le ctx sup s n id s1 hc
    subst hids
    refine ⟨Nat.le_trans hle ih1, ?_, ?_⟩
    · rw [List.chain'_cons']
      constructor
      · intro y hy
        rw [hid] at hy
        simp at hy
        omega
      · rw [hid]
        exact ih2
    · intro i hi
      rcases List.mem_cons.mp hi with hi | hi
      · subst hi
        rw [hid]
        exact ⟨hle, ih1⟩
      · obtain ⟨hi1, hi2⟩ := ih3 i hi
        exact ⟨Nat.le_trans hle hi1, hi2⟩

theorem runCallback_nil_elim (ctx : Node → Bool) (sup : Node → Bool × Option SplitReason)
    (s : CBState) (ids : List Nat) (s2 : CBState)
    (h : runCallback ctx sup s [] = Except.ok (ids, s2)) : ids = [] ∧ s2 = s := by
  unfold runCallback at h
  injection h with h'
  injection h' with h1 h2
  exact ⟨h1.symm, h2.symm⟩

theorem runCallback_first (ctx : Node → Bool) (sup : Node → Bool × Option SplitReason)
    (s : CBState) (n : Node) (ns : List Node) (ids : List Nat) (s2 : CBState)
    (h : runCallback ctx sup s (n :: ns) = Except.ok (ids, s2))
    (hp : s.prev_value = none) : ids.head? = some (s.partition_cnt + 1) := by
  obtain ⟨id, s1, ids', hc, hr, hids⟩ := runCallback_cons_elim ctx sup s n ns ids s2 h
  have hid : id = s1.partition_cnt := callback_ok_id ctx sup s n id s1 hc
  have hcnt := callback_ok_cnt ctx sup s n id s1 hc
  rw [hp] at hcnt
  simp only [reduceCtorEq, if_false] at hcnt
  subst hids
  simp [hid, hcnt]

theorem runCallback_ids_pos (ctx : Node → Bool) (sup : Node → Bool × Option SplitReason)
    (ns : List Node) (s : CBState) (ids : List Nat) (s2 : CBState)
    (h : runCallback ctx sup s ns = Except.ok (ids, s2))
    (hp : s.prev_value = none) : ∀ id ∈ ids, s.partition_cnt + 1 ≤ id := by
  cases ns with
  | nil =>
    obtain ⟨hids, -⟩ := runCallback_nil_elim ctx sup s ids s2 h
    subst hids
    simp
  | cons n ns =>
    obtain ⟨id, s1, ids', hc, hr, hids⟩ := runCallback_cons_elim ctx sup s n ns ids s2 h
    have hid : id = s1.partition_cnt := callback_ok_id ctx sup s n id s1 hc
    have hcnt := callback_ok_cnt ctx sup s n id s1 hc
    rw [hp] at hcnt
    simp only [reduceCtorEq, if_false] at hcnt
    subst hids
    intro i hi
    rcases List.mem_cons.mp hi with hi | hi
    · omega
    · obtain ⟨h1, -⟩ := (runCallback_spec ctx sup ns s1 ids' s2 hr).2.2 i hi
      omega

theorem runCallback_flag (ctx : Node → Bool) (sup : Node → Bool × Option SplitReason) :
    ∀ (ns : List Node) (s : CBState) (ids : List Nat) (s2 : CBState),
      runCallback ctx sup s ns = Except.ok (ids, s2) →
      (s2.has_thunder_tracable_checkpoint = true ↔
        (s.has_thunder_tracable_checkpoint = true ∨
          ∃ n ∈ ns, ctx n = false ∧ n.target = Target.tag_activation_checkpoint ∧
            (sup n).1 = true))
  | [], s, ids, s2, h => by
    obtain ⟨-, hs⟩ := runCallback_nil_elim ctx sup s ids s2 h
    subst hs
    simp
  | n :: ns, s, ids, s2, h => by
    obtain ⟨id, s1, ids', hc, hr, -⟩ := runCallback_cons_elim ctx sup s n ns ids s2 h
    have hstep := callback_ok_flag ctx sup s n id s1 hc
    have ih := runCallback_flag ctx sup ns s1 ids' s2 hr
    rw [ih, hstep]
    constructor
    · rintro ((hf | hn) | ⟨m, hm, hrest⟩)
      · exact Or.inl hf
      · exact Or.inr ⟨n, List.mem_cons_self n ns, hn⟩
      · exact Or.inr ⟨m, List.mem_cons_of_mem n hm, hrest⟩
    · rintro (hf | ⟨m, hm, hrest⟩)
      · exact Or.inl (Or.inl hf)
      · rcases List.mem_cons.mp hm with hm | hm
        · subst hm
          exact Or.inl (Or.inr hrest)
        · exact Or.inr ⟨m, hm, hrest⟩

/-! Claim theorems: the partition callback. -/

/-- C1: on the scenario [A(supported), B(supported), C(unsupported),
D(supported)] the callback assigns partition ids 1, 1, 2, 3 and records
supported partitions {1, 3}; in general, starting from the initial state
the very first call node always flips and receives partition id 1,
partition id 0 is never assigned, and the partition counter is bumped
exactly when the node's support classification differs from the previous
call node's. -/
theorem C1_scenario_first_flip :
    (runCallback ctx0 sup0 initState [nA, nB, nC, nD] =
        Except.ok ([1, 1, 2, 3], finalABCD) ∧
      finalABCD.supported_partitions = [1, 3]) ∧
    (∀ (ctx : Node → Bool) (sup : Node → Bool × Option SplitReason)
        (n : Node) (ns : List Node) (ids : List Nat) (s2 : CBState),
      runCallback ctx sup initState (n :: ns) = Except.ok (ids, s2) →
      ids.head? = some 1 ∧ 0 ∉ ids) ∧
    (∀ (ctx : Node → Bool) (sup : Node → Bool × Option SplitReason)
        (s : CBState) (n : Node) (id : Nat) (s' : CBState),
      callback ctx sup s n = Except.ok (id, s') →
      (s'.partition_cnt = s.partition_cnt + 1 ↔
        ¬ s.prev_value = some (classify ctx sup n))) := by
  refine ⟨⟨rfl, rfl⟩, ?_, ?_⟩
  · intro ctx sup n ns ids s2 h
    constructor
    · exact runCallback_first ctx sup initState n ns ids s2 h rfl
    · intro h0
      have := runCallback_ids_pos ctx sup (n :: ns) initState ids s2 h rfl 0 h0
      omega
  · intro ctx sup s n id s' h
    rw [callback_ok_cnt ctx sup s n id s' h]
    by_cases hp : s.prev_value = some (classify ctx sup n)
    · rw [if_pos hp]
      constructor
      · intro h'
        exact absurd h' (by omega)
      · intro h'
        exact absurd hp h'
    · rw [if_neg hp]
      exact ⟨fun _ => hp, fun _ => rfl⟩

/-- Witness for C1: the general first-flip part applied to the concrete
scenario run. -/
theorem C1_scenario_first_flip_witness :
    ([1, 1, 2, 3] : List Nat).head? = some 1 ∧ 0 ∉ ([1, 1, 2, 3] : List Nat) :=
  C1_scenario_first_flip.2.1 ctx0 sup0 nA [nB, nC, nD] [1, 1, 2, 3] finalABCD rfl

/-- C2: the sequence of partition ids assigned by the callback in program
order is non-decreasing, so any two call nodes sharing a partition id have
only that id between them (contiguity). -/
theorem C2_contiguity (ctx : Node → Bool) (sup : Node → Bool × Option SplitReason)
    (nodes : List Node) (ids : List Nat) (s : CBState)
    (h : runCallback ctx sup initState nodes = Except.ok (ids, s)) :
    List.Chain' (· ≤ ·) ids ∧
    ∀ (i j k : Nat) (hij : i ≤ j) (hjk : j ≤ k) (hk : k < ids.length),
      ids.get ⟨i, Nat.lt_of_le_of_lt (Nat.le_trans hij hjk) hk⟩ = ids.get ⟨k, hk⟩ →
      ids.get ⟨j, Nat.lt_of_le_of_lt hjk hk⟩ =
        ids.get ⟨i, Nat.lt_of_le_of_lt (Nat.le_trans hij hjk) hk⟩ := by
  have hchain0 := (runCallback_spec ctx sup nodes initState ids s h).2.1
  have hchain : List.Chain' (· ≤ ·) ids := (List.chain'_cons'.mp hchain0).2
  refine ⟨hchain, ?_⟩
  have hpw : List.Pairwise (· ≤ ·) ids := List.chain'_iff_pairwise.mp hchain
  have hmono : ∀ (a b : Fin ids.length), a ≤ b → ids.get a ≤ ids.get b := by
    intro a b hab
    rcases Nat.lt_or_eq_of_le hab with h' | h'
    · exact List.pairwise_iff_get.mp hpw a b h'
    · have : a = b := Fin.ext h'
      rw [this]
  intro i j k hij hjk hk heq
  have h1 := hmono ⟨i, Nat.lt_of_le_of_lt (Nat.le_trans hij hjk) hk⟩
    ⟨j, Nat.lt_of_le_of_lt hjk hk⟩ hij
  have h2 := hmono ⟨j, Nat.lt_of_le_of_lt hjk hk⟩ ⟨k, hk⟩ hjk
  omega

/-- Witness for C2 at the concrete scenario run. -/
theorem C2_contiguity_witness :
    List.Chain' (· ≤ ·) ([1, 1, 2, 3] : List Nat) ∧
    ∀ (i j k : Nat) (hij : i ≤ j) (hjk : j ≤ k)
      (hk : k < ([1, 1, 2, 3] : List Nat).length),
      ([1, 1, 2, 3] : List Nat).get ⟨i, Nat.lt_of_le_of_lt (Nat.le_trans hij hjk) hk⟩ =
          ([1, 1, 2, 3] : List Nat).get ⟨k, hk⟩ →
      ([1, 1, 2, 3] : List Nat).get ⟨j, Nat.lt_of_le_of_lt hjk hk⟩ =
        ([1, 1, 2, 3] : List Nat).get ⟨i, Nat.lt_of_le_of_lt (Nat.le_trans hij hjk) hk⟩ :=
  C2_contiguity ctx0 sup0 [nA, nB, nC, nD] [1, 1, 2, 3] finalABCD rfl

/-- C3: a node in the unsupported-context set is classified unsupported
with an UNSUPPORTED_NODE reason citing the context, without consulting the
support predicate (the callback result does not depend on it), and the
partition id it receives is not a supported partition. -/
theorem C3_context_override (ctx : Node → Bool) (sup sup' : Node → Bool × Option SplitReason)
    (s : CBState) (node : Node) (hctx : ctx node = true)
    (hop : node.isStructural = false) (hinv : StateInv s) :
    callback ctx sup s node = callback ctx sup' s node ∧
    ∃ id s2, callback ctx sup s node = Except.ok (id, s2) ∧
      s2.prev_value = some false ∧
      id ∉ s2.supported_partitions ∧
      s2.split_reasons = s.split_reasons ++
        [⟨SplitReasonType.UNSUPPORTED_NODE, unsupportedCtxInfo node⟩] := by
  have hstage := callback_eq_stages ctx sup s node hop
  have hstage' := callback_eq_stages ctx sup' s node hop
  have hcs := classifyState_ctx ctx sup s node hctx
  have hcs' := classifyState_ctx ctx sup' s node hctx
  constructor
  · rw [hstage, hstage', hcs, hcs']
  · refine ⟨(regionStep false
        { s with split_reasons := s.split_reasons ++
            [⟨SplitReasonType.UNSUPPORTED_NODE, unsupportedCtxInfo node⟩] }).1,
      (regionStep false
        { s with split_reasons := s.split_reasons ++
            [⟨SplitReasonType.UNSUPPORTED_NODE, unsupportedCtxInfo node⟩] }).2,
      ?_, ?_, ?_, ?_⟩
    · rw [hstage, hcs]
    · exact regionStep_prev false _
    · exact regionStep_false_not_supported _ hinv
    · rw [regionStep_reasons]

/-- Witness for C3: node C is individually supported by the predicate but
lies in the context set. -/
theorem C3_context_override_witness :
    callback ctxE supAll initState nC = callback ctxE sup0 initState nC ∧
    ∃ id s2, callback ctxE supAll initState nC = Except.ok (id, s2) ∧
      s2.prev_value = some false ∧
      id ∉ s2.supported_partitions ∧
      s2.split_reasons = initState.split_reasons ++
        [⟨SplitReasonType.UNSUPPORTED_NODE, unsupportedCtxInfo nC⟩] :=
  C3_context_override ctxE supAll sup0 initState nC (by decide) (by decide) (by decide)

/-- C9: a structural node (placeholder, attribute access or output)
reaching the callback raises the assertion immediately, before any
classification or assignment; a call-type node never does. -/
theorem C9_structural_assertion (ctx : Node → Bool) (sup : Node → Bool × Option SplitReason)
    (s : CBState) (node : Node) :
    (node.isStructural = true →
      callback ctx sup s node = Except.error
        ("fx.split_module should have only passed node.op=call_* but received " ++
          node.op.str)) ∧
    (node.isStructural = false → ∃ r, callback ctx sup s node = Except.ok r) :=
  ⟨callback_structural ctx sup s node,
    fun h => ⟨_, callback_eq_stages ctx sup s node h⟩⟩

/-- Witness for C9: a placeholder node errors, a call node succeeds. -/
theorem C9_structural_assertion_witness :
    callback ctx0 sup0 initState nP = Except.error
      ("fx.split_module should have only passed node.op=call_* but received placeholder") ∧
    ∃ r, callback ctx0 sup0 initState nA = Except.ok r :=
  ⟨(C9_structural_assertion ctx0 sup0 initState nP).1 (by decide),
    (C9_structural_assertion ctx0 sup0 initState nA).2 (by decide)⟩

/-- C10: the checkpoint-duplication flag ends up set iff some processed
node is outside the unsupported-context set, targets
tag_activation_checkpoint and is classified supported by the predicate;
in particular a tagged checkpoint inside a disqualifying context never
sets it. -/
theorem C10_checkpoint_flag (ctx : Node → Bool) (sup : Node → Bool × Option SplitReason)
    (nodes : List Node) (ids : List Nat) (s : CBState)
    (h : runCallback ctx sup initState nodes = Except.ok (ids, s)) :
    (s.has_thunder_tracable_checkpoint = true ↔
      ∃ n ∈ nodes, ctx n = false ∧ n.target = Target.tag_activation_checkpoint ∧
        (sup n).1 = true) ∧
    ((∀ n ∈ nodes, n.target = Target.tag_activation_checkpoint → ctx n = true) →
      s.has_thunder_tracable_checkpoint = false) := by
  have hmain := runCallback_flag ctx sup nodes initState ids s h
  have hinit : initState.has_thunder_tracable_checkpoint = true ↔ False := by
    simp [initState]
  rw [hinit, false_or] at hmain
  refine ⟨hmain, ?_⟩
  intro hall
  cases hflag : s.has_thunder_tracable_checkpoint with
  | false => rfl
  | true =>
    obtain ⟨n, hn, hc, ht, -⟩ := hmain.mp hflag
    have := hall n hn ht
    rw [this] at hc
    cases hc

/-- Witness for C10 at a concrete run containing a supported checkpoint
node. -/
theorem C10_checkpoint_flag_witness :
    (finalAK.has_thunder_tracable_checkpoint = true ↔
      ∃ n ∈ [nA, nK], ctx0 n = false ∧ n.target = Target.tag_activation_checkpoint ∧
        (sup0 n).1 = true) ∧
    ((∀ n ∈ [nA, nK], n.target = Target.tag_activation_checkpoint → ctx0 n = true) →
      finalAK.has_thunder_tracable_checkpoint = false) :=
  C10_checkpoint_flag ctx0 sup0 [nA, nK] [1, 1] finalAK rfl

/-! Facts about the compile/assembly phase. -/

theorem getattr_mem (g : SplitGM) (name : String) (m : Submodule)
    (h : g.getattr name = some m) : m ∈ g.submods :=
  List.mem_of_find?_eq_some h

theorem deepcopy_submods_copy (g : SplitGM) (m : Submodule)
    (h : m ∈ (deepcopy g).submods) : m.copy = g.copyId + 1 := by
  unfold deepcopy at h
  simp only [List.mem_map] at h
  obtain ⟨m0, -, hm⟩ := h
  rw [← hm]

/-- Exhaustive description of one compile-loop iteration: the Thunder
branch, the inductor branch, or the glue branch. -/
theorem compileStep_cases (J : Type) (tj ti : Submodule → J) (sp : List Nat)
    (ckpt : Bool) (origin : SplitGM) (st : CompileState J) (name : String)
    (st' : CompileState J)
    (h : compileStep J tj ti sp ckpt origin st name = Except.ok st') :
    (∃ m, is_thunder_supported_partition sp name = Except.ok true ∧
      st.split_gm.getattr name = some m ∧
      st'.split_gm = update_node_and_submodule (checkpoint_converter st.split_gm m).1 name
        (strReplace name "submod" "thunder") ∧
      st'.events = st.events ++
        [Event.convert m, Event.compile_thunder { m with converted := true },
         Event.rename name (strReplace name "submod" "thunder")] ∧
      st'.thunder_compiled_fns =
        st.thunder_compiled_fns ++ [tj { m with converted := true }] ∧
      ((ckpt = true ∧ ∃ k,
          origin.getattr
            (strReplace (strReplace name "submod" "thunder") "thunder" "submod") = some k ∧
          st'.submodule_to_compiled_fns = st.submodule_to_compiled_fns ++
            [(k, ⟨tj { m with converted := true }, CompilerType.THUNDER⟩)]) ∨
       (ckpt = false ∧
          st'.submodule_to_compiled_fns = st.submodule_to_compiled_fns ++
            [({ m with converted := true },
              ⟨tj { m with converted := true }, CompilerType.THUNDER⟩)]))) ∨
    (∃ m, is_thunder_supported_partition sp name = Except.ok false ∧
      strStartsWith name "submod" = true ∧
      st.split_gm.getattr name = some m ∧
      st'.split_gm = update_node_and_submodule st.split_gm name
        (strReplace name "submod" "inductor") ∧
      st'.events = st.events ++
        [Event.compile_inductor m, Event.rename name (strReplace name "submod" "inductor")] ∧
      st'.thunder_compiled_fns = st.thunder_compiled_fns ∧
      ((ckpt = true ∧ ∃ k,
          origin.getattr
            (strReplace (strReplace name "submod" "inductor") "inductor" "submod") = some k ∧
          st'.submodule_to_compiled_fns = st.submodule_to_compiled_fns ++
            [(k, ⟨ti m, CompilerType.TORCH_INDUCTOR⟩)]) ∨
       (ckpt = false ∧
          st'.submodule_to_compiled_fns = st.submodule_to_compiled_fns ++
            [(m, ⟨ti m, CompilerType.TORCH_INDUCTOR⟩)]))) ∨
    (is_thunder_supported_partition sp name = Except.ok false ∧
      strStartsWith name "submod" = false ∧ st' = st) := by
  unfold compileStep at h
  cases hpred : is_thunder_supported_partition sp name with
  | error e => rw [hpred] at h; simp at h
  | ok b =>
    rw [hpred] at h
    cases b with
    | true =>
      simp only [] at h
      cases hga : st.split_gm.getattr name with
      | none => rw [hga] at h; simp at h
      | some m =>
        rw [hga] at h
        simp only [] at h
        cases hck : ckpt with
        | true =>
          rw [hck] at h
          simp only [if_true] at h
          cases hgo : origin.getattr
              (strReplace (strReplace name "submod" "thunder") "thunder" "submod") with
          | none => rw [hgo] at h; simp at h
          | some k =>
            rw [hgo] at h
            injection h with h'
            refine Or.inl ⟨m, rfl, rfl, ?_, ?_, ?_, Or.inl ⟨rfl, k, rfl, ?_⟩⟩ <;> (rw [← h']; try rfl)
        | false =>
          rw [hck] at h
          simp only [Bool.false_eq_true, if_false] at h
          injection h with h'
          refine Or.inl ⟨m, rfl, rfl, ?_, ?_, ?_, Or.inr ⟨rfl, ?_⟩⟩ <;> (rw [← h']; try rfl)
    | false =>
      simp only [] at h
      cases hsw : strStartsWith name "submod" with
      | false =>
        rw [hsw] at h
        simp only [Bool.false_eq_true, if_false] at h
        injection h with h'
        exact Or.inr (Or.inr ⟨rfl, rfl, h'.symm⟩)
      | true =>
        rw [hsw] at h
        simp only [if_true] at h
        cases hga : st.split_gm.getattr name with
        | none => rw [hga] at h; simp at h
        | some m =>
          rw [hga] at h
          simp only [] at h
          cases hck : ckpt with
          | true =>
            rw [hck] at h
            simp only [if_true] at h
            cases hgo : origin.getattr
                (strReplace (strReplace name "submod" "inductor") "inductor" "submod") with
            | none => rw [hgo] at h; simp at h
            | some k =>
              rw [hgo] at h
              injection h with h'
              refine Or.inr (Or.inl ⟨m, rfl, rfl, rfl, ?_, ?_, ?_,
                Or.inl ⟨rfl, k, rfl, ?_⟩⟩) <;> (rw [← h']; try rfl)
          | false =>
            rw [hck] at h
            simp only [Bool.false_eq_true, if_false] at h
            injection h with h'
            refine Or.inr (Or.inl ⟨m, rfl, rfl, rfl, ?_, ?_, ?_,
              Or.inr ⟨rfl, ?_⟩⟩) <;> (rw [← h']; try rfl)

theorem compileLoop_events (J : Type) (tj ti : Submodule → J) (sp : List Nat)
    (ckpt : Bool) (origin : SplitGM) :
    ∀ (ns : List String) (st st' : CompileState J),
      compileLoop J tj ti sp ckpt origin st ns = Except.ok st' →
      ∃ tail, st'.events = st.events ++ tail ∧ Event.duplicate ∉ tail ∧
        tail.countP Event.isConvert = tail.countP Event.isCompileThunder
  | [], st, st', h => by
    unfold compileLoop at h
    injection h with h'
    refine ⟨[], ?_, by simp, rfl⟩
    rw [← h']
    simp
  | n :: ns, st, st', h => by
    unfold compileLoop at h
    cases hs : compileStep J tj ti sp ckpt origin st n with
    | error e => rw [hs] at h; simp at h
    | ok st1 =>
      rw [hs] at h
      obtain ⟨tail, ht, hd, hc⟩ := compileLoop_events J tj ti sp ckpt origin ns st1 st' h
      rcases compileStep_cases J tj ti sp ckpt origin st n st1 hs with
        ⟨m, -, -, -, hev, -, -⟩ | ⟨m, -, -, -, -, hev, -, -⟩ | ⟨-, -, hst⟩
      · refine ⟨[Event.convert m, Event.compile_thunder { m with converted := true },
          Event.rename n (strReplace n "submod" "thunder")] ++ tail, ?_, ?_, ?_⟩
        · rw [ht, hev, List.append_assoc]
        · simp only [List.mem_append] at *
          rintro (hmem | hmem)
          · simp at hmem
          · exact hd hmem
        · simp only [List.countP_append, hc]
          rfl
      · refine ⟨[Event.compile_inductor m,
          Event.rename n (strReplace n "submod" "inductor")] ++ tail, ?_, ?_, ?_⟩
        · rw [ht, hev, List.append_assoc]
        · simp only [List.mem_append] at *
          rintro (hmem | hmem)
          · simp at hmem
          · exact hd hmem
        · simp only [List.countP_append, hc]
          rfl
      · subst hst
        exact ⟨tail, ht, hd, hc⟩

theorem compileLoop_mapping_ckpt (J : Type) (tj ti : Submodule → J) (sp : List Nat)
    (origin : SplitGM) :
    ∀ (ns : List String) (st st' : CompileState J),
      compileLoop J tj ti sp true origin st ns = Except.ok st' →
      ∀ p ∈ st'.submodule_to_compiled_fns,
        p ∈ st.submodule_to_compiled_fns ∨ p.1 ∈ origin.submods
  | [], st, st', h => by
    unfold compileLoop at h
    injection h with h'
    subst h'
    intro p hp
    exact Or.inl hp
  | n :: ns, st, st', h => by
    unfold compileLoop at h
    cases hs : compileStep J tj ti sp true origin st n with
    | error e => rw [hs] at h; simp at h
    | ok st1 =>
      rw [hs] at h
      intro p hp
      rcases compileLoop_mapping_ckpt J tj ti sp origin ns st1 st' h p hp with h1 | h1
      · rcases compileStep_cases J tj ti sp true origin st n st1 hs with
          ⟨m, -, -, -, -, -, hsub⟩ | ⟨m, -, -, -, -, -, -, hsub⟩ | ⟨-, -, hst⟩
        · rcases hsub with ⟨-, k, hgo, hmap⟩ | ⟨hck, -⟩
          · rw [hmap] at h1
            rcases List.mem_append.mp h1 with h2 | h2
            · exact Or.inl h2
            · simp only [List.mem_singleton] at h2
              subst h2
              exact Or.inr (getattr_mem origin _ k hgo)
          · cases hck
        · rcases hsub with ⟨-, k, hgo, hmap⟩ | ⟨hck, -⟩
          · rw [hmap] at h1
            rcases List.mem_append.mp h1 with h2 | h2
            · exact Or.inl h2
            · simp only [List.mem_singleton] at h2
              subst h2
              exact Or.inr (getattr_mem origin _ k hgo)
          · cases hck
        · subst hst
          exact Or.inl h1
      · exact Or.inr h1

theorem compileLoop_mapping_nockpt (J : Type) (tj ti : Submodule → J) (sp : List Nat)
    (origin : SplitGM) :
    ∀ (ns : List String) (st st' : CompileState J),
      compileLoop J tj ti sp false origin st ns = Except.ok st' →
      ∀ p ∈ st'.submodule_to_compiled_fns,
        p ∈ st.submodule_to_compiled_fns ∨
        (p.2.compiler = CompilerType.THUNDER ∧ Event.compile_thunder p.1 ∈ st'.events) ∨
        (p.2.compiler = CompilerType.TORCH_INDUCTOR ∧ Event.compile_inductor p.1 ∈ st'.events)
  | [], st, st', h => by
    unfold compileLoop at h
    injection h with h'
    subst h'
    intro p hp
    exact Or.inl hp
  | n :: ns, st, st', h => by
    unfold compileLoop at h
    cases hs : compileStep J tj ti sp false origin st n with
    | error e => rw [hs] at h; simp at h
    | ok st1 =>
      rw [hs] at h
      intro p hp
      have hmono : ∀ e, e ∈ st1.events → e ∈ st'.events := by
        obtain ⟨tail, ht, -, -⟩ := compileLoop_events J tj ti sp false origin ns st1 st' h
        intro e he
        rw [ht]
        exact List.mem_append_left _ he
      rcases compileLoop_mapping_nockpt J tj ti sp origin ns st1 st' h p hp with h1 | h1 | h1
      · rcases compileStep_cases J tj ti sp false origin st n st1 hs with
          ⟨m, -, -, -, hev, -, hsub⟩ | ⟨m, -, -, -, -, hev, -, hsub⟩ | ⟨-, -, hst⟩
        · rcases hsub with ⟨hck, -⟩ | ⟨-, hmap⟩
          · cases hck
          · rw [hmap] at h1
            rcases List.mem_append.mp h1 with h2 | h2
            · exact Or.inl h2
            · simp only [List.mem_singleton] at h2
              subst h2
              refine Or.inr (Or.inl ⟨rfl, hmono _ ?_⟩)
              rw [hev]
              simp
        · rcases hsub with ⟨hck, -⟩ | ⟨-, hmap⟩
          · cases hck
          · rw [hmap] at h1
            rcases List.mem_append.mp h1 with h2 | h2
            · exact Or.inl h2
            · simp only [List.mem_singleton] at h2
              subst h2
              refine Or.inr (Or.inr ⟨rfl, hmono _ ?_⟩)
              rw [hev]
              simp
        · subst hst
          exact Or.inl h1
      · exact Or.inr (Or.inl h1)
      · exact Or.inr (Or.inr h1)

theorem compilePhase_elim (J : Type) (tj ti : Submodule → J) (gm : List Node)
    (sg0 : SplitGM) (sp : List Nat) (ckpt : Bool) (rs : List SplitReason)
    (fin : SplitGM) (info : SubgraphInfo J) (evs : List Event)
    (h : compilePhase J tj ti gm sg0 sp ckpt rs = Except.ok (fin, info, evs)) :
    ∃ stF, compileLoop J tj ti sp ckpt sg0
        { split_gm := if ckpt then deepcopy sg0 else sg0
          thunder_compiled_fns := []
          submodule_to_compiled_fns := []
          events := if ckpt then [Event.duplicate] else [] }
        (if ckpt then deepcopy sg0 else sg0).nodes = Except.ok stF ∧
      fin = stF.split_gm ∧
      info.origin_split_gm = (if ckpt then sg0 else stF.split_gm) ∧
      info.split_gm = stF.split_gm ∧
      info.submodule_to_compiled_fns = stF.submodule_to_compiled_fns ∧
      info.thunder_compiled_fns = stF.thunder_compiled_fns ∧
      evs = stF.events ++ [Event.recompile] := by
  unfold compilePhase at h
  simp only [] at h
  cases hl : compileLoop J tj ti sp ckpt sg0
      { split_gm := if ckpt then deepcopy sg0 else sg0
        thunder_compiled_fns := []
        submodule_to_compiled_fns := []
        events := if ckpt then [Event.duplicate] else [] }
      (if ckpt then deepcopy sg0 else sg0).nodes with
  | error e => simp [hl] at h
  | ok stF =>
    simp only [hl] at h
    injection h with h'
    injection h' with h1 h2
    injection h2 with h2 h3
    refine ⟨stF, rfl, h1.symm, ?_, ?_, ?_, ?_, h3.symm⟩ <;> rw [← h2]

theorem pred_not_startsWith (sp : List Nat) (name : String)
    (hns : strStartsWith name "submod" = false) :
    is_thunder_supported_partition sp name = Except.ok false := by
  unfold is_thunder_supported_partition
  rw [hns]
  simp

/-! Claim theorems: the compile/assembly phase. -/

/-- C4: when a supported checkpoint node triggered duplication, every key
of the submodule-to-CompiledFunction mapping is a submodule of the
pre-duplication split graph (and not an object of the duplicate); when no
duplication occurred, every key is the very submodule object handed to the
backend compiler, with the matching backend tag. -/
theorem C4_bookkeeping_keys (J : Type) (tj ti : Submodule → J) (gm : List Node)
    (sg0 : SplitGM) (sp : List Nat) (ckpt : Bool) (rs : List SplitReason)
    (fin : SplitGM) (info : SubgraphInfo J) (evs : List Event)
    (h : compilePhase J tj ti gm sg0 sp ckpt rs = Except.ok (fin, info, evs)) :
    (ckpt = true → ∀ p ∈ info.submodule_to_compiled_fns, p.1 ∈ sg0.submods ∧
      ((∀ m ∈ sg0.submods, m.copy = sg0.copyId) → p.1 ∉ (deepcopy sg0).submods)) ∧
    (ckpt = false → ∀ p ∈ info.submodule_to_compiled_fns,
      (p.2.compiler = CompilerType.THUNDER ∧ Event.compile_thunder p.1 ∈ evs) ∨
      (p.2.compiler = CompilerType.TORCH_INDUCTOR ∧ Event.compile_inductor p.1 ∈ evs)) := by
  obtain ⟨stF, hloop, hfin, hor, hsp, hmap, hth, hevs⟩ :=
    compilePhase_elim J tj ti gm sg0 sp ckpt rs fin info evs h
  constructor
  · rintro rfl p hp
    rw [hmap] at hp
    rcases compileLoop_mapping_ckpt J tj ti sp sg0 _ _ stF hloop p hp with h1 | h1
    · simp at h1
    · refine ⟨h1, ?_⟩
      intro hwf hcontra
      have hc1 := hwf p.1 h1
      have hc2 := deepcopy_submods_copy sg0 p.1 hcontra
      omega
  · rintro rfl p hp
    rw [hmap] at hp
    rcases compileLoop_mapping_nockpt J tj ti sp sg0 _ _ stF hloop p hp with h1 | h1 | h1
    · simp at h1
    · exact Or.inl ⟨h1.1, by rw [hevs]; exact List.mem_append_left _ h1.2⟩
    · exact Or.inr ⟨h1.1, by rw [hevs]; exact List.mem_append_left _ h1.2⟩

/-- Witness for C4 at the concrete checkpoint-duplicating run. -/
theorem C4_bookkeeping_keys_witness :
    (true = true → ∀ p ∈ infoCkpt.submodule_to_compiled_fns, p.1 ∈ sgC.submods ∧
      ((∀ m ∈ sgC.submods, m.copy = sgC.copyId) → p.1 ∉ (deepcopy sgC).submods)) ∧
    (true = false → ∀ p ∈ infoCkpt.submodule_to_compiled_fns,
      (p.2.compiler = CompilerType.THUNDER ∧ Event.compile_thunder p.1 ∈ evsCkpt) ∨
      (p.2.compiler = CompilerType.TORCH_INDUCTOR ∧
        Event.compile_inductor p.1 ∈ evsCkpt)) :=
  C4_bookkeeping_keys Nat tj0 ti0 [] sgC [1, 3] true [] splitCkpt infoCkpt evsCkpt rfl

/-- C5 counterexample: a pass over [A(supported), B(supported),
C(unsupported), D(supported)] detects no supported tagged checkpoint (the
flag stays False), yet checkpoint-conversion events occur — the converter
is invoked on each Thunder-compiled submodule. -/
theorem C5_counterexample :
    runCallback ctx0 sup0 initState [nA, nB, nC, nD] =
        Except.ok ([1, 1, 2, 3], finalABCD) ∧
    finalABCD.has_thunder_tracable_checkpoint = false ∧
    Event.convert (smC 1) ∈ evsABCD ∧
    evsABCD.countP Event.isConvert = 2 :=
  ⟨rfl, rfl, by decide, by decide⟩

/-- C5 (amended): `checkpoint_converter` is invoked exactly once per
Thunder-compiled partition — conversion events equal primary-backend
compilation events — irrespective of whether a supported tagged checkpoint
was detected; only the graph duplication is conditional on detection. -/
theorem C5_converter_per_partition (J : Type) (tj ti : Submodule → J) (gm : List Node)
    (sg0 : SplitGM) (sp : List Nat) (ckpt : Bool) (rs : List SplitReason)
    (fin : SplitGM) (info : SubgraphInfo J) (evs : List Event)
    (h : compilePhase J tj ti gm sg0 sp ckpt rs = Except.ok (fin, info, evs)) :
    evs.countP Event.isConvert = evs.countP Event.isCompileThunder := by
  obtain ⟨stF, hloop, -, -, -, -, -, hevs⟩ :=
    compilePhase_elim J tj ti gm sg0 sp ckpt rs fin info evs h
  obtain ⟨tail, ht, -, hc⟩ := compileLoop_events J tj ti sp ckpt sg0 _ _ stF hloop
  rw [hevs, ht]
  simp only [List.countP_append, hc]
  cases ckpt <;>
    simp [List.countP_cons, List.countP_nil, Event.isConvert, Event.isCompileThunder]

/-- Witness for C5's amended statement at the no-checkpoint run. -/
theorem C5_converter_per_partition_witness :
    evsNoCkpt.countP Event.isConvert = evsNoCkpt.countP Event.isCompileThunder :=
  C5_converter_per_partition Nat tj0 ti0 [] sgC [1, 3] false [] splitNoCkpt infoNoCkpt
    evsNoCkpt rfl

/-- C6: in a full pass, the duplication event occurs exactly when the
partitioning detected a supported tagged checkpoint, at most once, and
before every other effect of the compile phase (in particular before any
backend compilation). -/
theorem C6_duplication_once (J : Type) (tj ti : Submodule → J)
    (mk_split : List (Node × Nat) → SplitGM) (ctx : Node → Bool)
    (sup : Node → Bool × Option SplitReason) (gm : List Node)
    (sg0 : SplitGM) (s : CBState) (fin : SplitGM) (info : SubgraphInfo J)
    (evs : List Event)
    (hsm : split_module mk_split ctx sup gm = Except.ok (sg0, s))
    (h : _splitter J tj ti mk_split ctx sup gm = Except.ok (fin, info, evs)) :
    ∃ rest,
      evs = (if s.has_thunder_tracable_checkpoint then [Event.duplicate] else []) ++ rest ∧
      Event.duplicate ∉ rest := by
  unfold _splitter at h
  rw [hsm] at h
  obtain ⟨stF, hloop, -, -, -, -, -, hevs⟩ :=
    compilePhase_elim J tj ti gm sg0 s.supported_partitions s.has_thunder_tracable_checkpoint
      s.split_reasons fin info evs h
  obtain ⟨tail, ht, hd, -⟩ :=
    compileLoop_events J tj ti s.supported_partitions s.has_thunder_tracable_checkpoint sg0
      _ _ stF hloop
  refine ⟨tail ++ [Event.recompile], ?_, ?_⟩
  · rw [hevs, ht, List.append_assoc]
  · intro hmem
    rcases List.mem_append.mp hmem with h1 | h1
    · exact hd h1
    · simp at h1

/-- Witness for C6 at the A/B/C/D scenario run (no checkpoint, no
duplication event). -/
theorem C6_duplication_once_witness :
    ∃ rest,
      evsABCD =
        (if finalABCD.has_thunder_tracable_checkpoint then [Event.duplicate] else []) ++
          rest ∧
      Event.duplicate ∉ rest :=
  C6_duplication_once Nat tj0 ti0 mk_split0 ctx0 sup0 [nA, nB, nC, nD] sgABCD finalABCD
    splitABCD infoABCD evsABCD rfl rfl

/-- C7 counterexample: in a pass without checkpoint duplication the
returned record's intermediate split-graph field aliases the final split
graph — it reflects the renames (it differs from the pre-rewrite graph
`sgC`) and is not distinguishable from the final-graph field. -/
theorem C7_counterexample :
    resNoCkpt = Except.ok (splitNoCkpt, infoNoCkpt, evsNoCkpt) ∧
    infoNoCkpt.origin_split_gm = infoNoCkpt.split_gm ∧
    infoNoCkpt.origin_split_gm ≠ sgC :=
  ⟨rfl, by decide, by decide⟩

/-- C7 (amended): the intermediate split-graph field holds the pre-rewrite
split graph exactly when checkpoint duplication occurred; otherwise it
aliases the final (post-rename) split graph, so the two fields coincide. -/
theorem C7_origin_field (J : Type) (tj ti : Submodule → J) (gm : List Node)
    (sg0 : SplitGM) (sp : List Nat) (ckpt : Bool) (rs : List SplitReason)
    (fin : SplitGM) (info : SubgraphInfo J) (evs : List Event)
    (h : compilePhase J tj ti gm sg0 sp ckpt rs = Except.ok (fin, info, evs)) :
    (ckpt = true → info.origin_split_gm = sg0) ∧
    (ckpt = false → info.origin_split_gm = info.split_gm) := by
  obtain ⟨stF, -, -, hor, hsp, -, -, -⟩ :=
    compilePhase_elim J tj ti gm sg0 sp ckpt rs fin info evs h
  constructor
  · rintro rfl
    rw [hor]
    simp
  · rintro rfl
    rw [hor, hsp]
    simp

/-- Witness for C7's amended statement at the checkpoint-duplicating run. -/
theorem C7_origin_field_witness :
    (true = true → infoCkpt.origin_split_gm = sgC) ∧
    (true = false → infoCkpt.origin_split_gm = infoCkpt.split_gm) :=
  C7_origin_field Nat tj0 ti0 [] sgC [1, 3] true [] splitCkpt infoCkpt evsCkpt rfl

/-- C8: during assembly a parent-graph node is compiled by the primary
backend iff its name starts with the generic prefix and the id parsed
after stripping "submod_" is in the supported set; it and its submodule
are then renamed with the thunder brand; every other submod-prefixed node
is compiled by the secondary backend and renamed with the inductor brand;
any other (glue) node leaves the state completely unchanged. -/
theorem C8_assembly_naming (J : Type) (tj ti : Submodule → J) (sp : List Nat)
    (ckpt : Bool) (origin : SplitGM) (st : CompileState J) (name : String)
    (st' : CompileState J)
    (h : compileStep J tj ti sp ckpt origin st name = Except.ok st') :
    (is_thunder_supported_partition sp name = Except.ok true →
      ∃ m, st.split_gm.getattr name = some m ∧
        Event.compile_thunder { m with converted := true } ∈ st'.events ∧
        st'.split_gm = update_node_and_submodule (checkpoint_converter st.split_gm m).1
          name (strReplace name "submod" "thunder") ∧
        st'.events = st.events ++
          [Event.convert m, Event.compile_thunder { m with converted := true },
           Event.rename name (strReplace name "submod" "thunder")]) ∧
    (is_thunder_supported_partition sp name = Except.ok false →
      strStartsWith name "submod" = true →
      ∃ m, st.split_gm.getattr name = some m ∧
        st'.split_gm = update_node_and_submodule st.split_gm name
          (strReplace name "submod" "inductor") ∧
        st'.events = st.events ++
          [Event.compile_inductor m,
           Event.rename name (strReplace name "submod" "inductor")]) ∧
    (strStartsWith name "submod" = false → st' = st) := by
  rcases compileStep_cases J tj ti sp ckpt origin st name st' h with
    ⟨m, hpred, hga, hsg, hev, -, -⟩ | ⟨m, hpred, hsw, hga, hsg, hev, -, -⟩ |
    ⟨hpred, hsw, hst⟩
  · refine ⟨fun _ => ⟨m, hga, ?_, hsg, hev⟩, fun hfalse => ?_, fun hns => ?_⟩
    · rw [hev]
      simp
    · rw [hpred] at hfalse
      injection hfalse with hh
      cases hh
    · rw [pred_not_startsWith sp name hns] at hpred
      injection hpred with hh
      cases hh
  · refine ⟨fun htrue => ?_, fun _ _ => ⟨m, hga, hsg, hev⟩, fun hns => ?_⟩
    · rw [hpred] at htrue
      injection htrue with hh
      cases hh
    · rw [hns] at hsw
      cases hsw
  · refine ⟨fun htrue => ?_, fun _ hstw => ?_, fun _ => hst⟩
    · rw [hpred] at htrue
      injection htrue with hh
      cases hh
    · rw [hstw] at hsw
      cases hsw

/-- Witness for C8 at one concrete Thunder-supported step. -/
theorem C8_assembly_naming_witness :
    (is_thunder_supported_partition [1, 3] "submod_1" = Except.ok true →
      ∃ m, stC.split_gm.getattr "submod_1" = some m ∧
        Event.compile_thunder { m with converted := true } ∈ stC1.events ∧
        stC1.split_gm = update_node_and_submodule (checkpoint_converter stC.split_gm m).1
          "submod_1" (strReplace "submod_1" "submod" "thunder") ∧
        stC1.events = stC.events ++
          [Event.convert m, Event.compile_thunder { m with converted := true },
           Event.rename "submod_1" (strReplace "submod_1" "submod" "thunder")]) ∧
    (is_thunder_supported_partition [1, 3] "submod_1" = Except.ok false →
      strStartsWith "submod_1" "submod" = true →
      ∃ m, stC.split_gm.getattr "submod_1" = some m ∧
        stC1.split_gm = update_node_and_submodule stC.split_gm "submod_1"
          (strReplace "submod_1" "submod" "inductor") ∧
        stC1.events = stC.events ++
          [Event.compile_inductor m,
           Event.rename "submod_1" (strReplace "submod_1" "submod" "inductor")]) ∧
    (strStartsWith "submod_1" "submod" = false → stC1 = stC) :=
  C8_assembly_naming Nat tj0 ti0 [1, 3] false sgC stC "submod_1" stC1 rfl

end ThunderSplitter
